import Mathlib

/-!
Verification of the reputation-ledger subsystem of an email-phishing
detection system.

The development shallowly embeds:
* the on-chain ledger (Solidity contract `DomainClassification`):
  state machine over records, a per-submitter cooldown gate, totals and
  emitted events (namespace `Chain`);
* the ledger client (`backend/blockchain/interact.js`): retry loop of
  `classifyDomain`, the reputation view `getDomainReputation`, and the
  event-replay listing `listAllDomains` (namespace `Client`);
* the browser extension's label/confidence logic
  (`content_script.js` / `background.js`, namespace `Extension`).

Solidity `uint256` values (timestamps, counters) are modelled as `Nat`;
the only arithmetic the contract performs on them is addition and a
checked decrement, both far from `2^256`, and the checked decrement is
modelled with an explicit underflow guard.  Addresses are opaque `Nat`s.
Reverting calls are modelled as `Except String`, with the transaction
wrapper restoring the pre-state on error (EVM revert semantics).
-/

namespace Chain

/-- Account addresses, opaque. -/
abbrev Addr := Nat

/-- Solidity struct `DomainRecord` (the field `exists` is spelled
`exists_` because `exists` is a Lean keyword). -/
structure DomainRecord where
  domain : String
  isSpam : Bool
  timestamp : Nat
  reporter : Addr
  reason : String
  exists_ : Bool
  deriving Repr, DecidableEq

/-- The zero-initialised record a Solidity mapping yields for an absent
key, and that `delete` resets a slot to. -/
def emptyRecord : DomainRecord :=
  { domain := "", isSpam := false, timestamp := 0, reporter := 0,
    reason := "", exists_ := false }

/-- Events emitted by the contract.  `DomainClassified` carries the
identifier, classification, reporter and block timestamp;
`DomainUpdated` carries the identifier, the old and the new
classification and the updater — and no timestamp field. -/
inductive Event where
  | DomainClassified (domain : String) (isSpam : Bool) (reporter : Addr)
      (timestamp : Nat)
  | DomainUpdated (domain : String) (oldClassification newClassification : Bool)
      (updater : Addr)
  deriving Repr, DecidableEq

/-- The timestamp an event carries, if it carries one.  `DomainUpdated`
has no timestamp argument. -/
def Event.timestampField : Event → Option Nat
  | .DomainClassified _ _ _ t => some t
  | .DomainUpdated _ _ _ _ => none

/-- An event together with the block it was mined in (the client's
`listAllDomains` dedupes on block number). -/
structure LogEntry where
  event : Event
  blockNumber : Nat
  deriving Repr, DecidableEq

/-- Contract storage plus the chain's event log. -/
structure ContractState where
  domains : String → DomainRecord
  lastSubmissionTime : Addr → Nat
  owner : Addr
  submissionCooldown : Nat
  totalDomains : Nat
  log : List LogEntry

/-- The constructor (`owner = msg.sender`) with zero-initialised
storage: `submissionCooldown = 0`, `totalDomains = 0`. -/
def initState (deployer : Addr) : ContractState :=
  { domains := fun _ => emptyRecord
    lastSubmissionTime := fun _ => 0
    owner := deployer
    submissionCooldown := 0
    totalDomains := 0
    log := [] }

/-- Solidity `classifyDomain(_domain, _isSpam, _reason)`.
The `canSubmit` modifier runs first
(`block.timestamp >= lastSubmissionTime[msg.sender] + submissionCooldown`),
then the non-empty check on the identifier; on success the record is
stored, the sender's gate is bumped, and exactly one event is emitted:
`DomainClassified` on a first write, `DomainUpdated` on an overwrite.
`sender` is `msg.sender`, `now` is `block.timestamp`, `blockNum` the
mined block number. -/
def classifyDomain (s : ContractState) (sender : Addr) (now blockNum : Nat)
    (domain : String) (isSpam : Bool) (reason : String) :
    Except String ContractState :=
  if ¬ (now ≥ s.lastSubmissionTime sender + s.submissionCooldown) then
    .error "Submission cooldown active"
  else if ¬ (domain.length > 0) then
    .error "Email address cannot be empty"
  else
    let isUpdate := (s.domains domain).exists_
    let oldClassification := (s.domains domain).isSpam
    let newRec : DomainRecord :=
      { domain := domain, isSpam := isSpam, timestamp := now,
        reporter := sender, reason := reason, exists_ := true }
    let s1 : ContractState :=
      { s with
        domains := fun d => if d = domain then newRec else s.domains d
        lastSubmissionTime := fun a => if a = sender then now
          else s.lastSubmissionTime a }
    if ¬ isUpdate then
      .ok { s1 with
            totalDomains := s1.totalDomains + 1
            log := s1.log ++
              [⟨.DomainClassified domain isSpam sender now, blockNum⟩] }
    else
      .ok { s1 with
            log := s1.log ++
              [⟨.DomainUpdated domain oldClassification isSpam sender,
                blockNum⟩] }

/-- Transaction-level view of `classifyDomain`: a reverted call leaves
the contract state exactly as it was (EVM revert semantics). -/
def classifyTx (s : ContractState) (sender : Addr) (now blockNum : Nat)
    (domain : String) (isSpam : Bool) (reason : String) :
    ContractState × Option String :=
  match classifyDomain s sender now blockNum domain isSpam reason with
  | .ok s' => (s', none)
  | .error e => (s, some e)

/-- Solidity `getDomainClassification(_domain)` — pure read returning
`(exists, isSpam, timestamp, reporter, reason)`; the zero tuple when the
record is absent. -/
def getDomainClassification (s : ContractState) (domain : String) :
    Bool × Bool × Nat × Addr × String :=
  let record := s.domains domain
  (record.exists_, record.isSpam, record.timestamp, record.reporter,
   record.reason)

/-- Solidity `isDomainKnown(_domain)` — lightweight read `(exists, isSpam)`. -/
def isDomainKnown (s : ContractState) (domain : String) : Bool × Bool :=
  let record := s.domains domain
  (record.exists_, record.isSpam)

/-- Solidity `getStats()` — `(totalDomains, 0)`. -/
def getStats (s : ContractState) : Nat × Nat :=
  (s.totalDomains, 0)

/-- Solidity `canUserSubmit(_user)` — pure read
`(block.timestamp >= lastSubmissionTime[_user] + submissionCooldown, nextTime)`. -/
def canUserSubmit (s : ContractState) (user : Addr) (now : Nat) :
    Bool × Nat :=
  let nextTime := s.lastSubmissionTime user + s.submissionCooldown
  (decide (now ≥ nextTime), nextTime)

/-- Solidity `updateSubmissionCooldown(_newCooldown)` — owner-only setter. -/
def updateSubmissionCooldown (s : ContractState) (sender : Addr)
    (newCooldown : Nat) : Except String ContractState :=
  if ¬ (sender = s.owner) then
    .error "Only owner can call this function"
  else
    .ok { s with submissionCooldown := newCooldown }

/-- Solidity `removeDomain(_domain)` — owner-only; requires the record to exist,
`delete`s the slot back to the zero record and performs the checked
decrement `totalDomains--` (which reverts on underflow in Solidity 0.8). -/
def removeDomain (s : ContractState) (sender : Addr) (domain : String) :
    Except String ContractState :=
  if ¬ (sender = s.owner) then
    .error "Only owner can call this function"
  else if ¬ (s.domains domain).exists_ then
    .error "Email does not exist"
  else if s.totalDomains = 0 then
    .error "arithmetic underflow"
  else
    .ok { s with
          domains := fun d => if d = domain then emptyRecord else s.domains d
          totalDomains := s.totalDomains - 1 }

end Chain

namespace Client

open Chain

/-- Substring test modelling JavaScript `String.prototype.includes`. -/
def strIncludes (s pat : String) : Bool :=
  (List.range (s.length + 1)).any fun i =>
    pat.toList.isPrefixOf (s.toList.drop i)

/-- The client's cooldown test on a caught error message:
`error.message.includes("cooldown") || error.message.includes("Submission cooldown active")`. -/
def isCooldownError (msg : String) : Bool :=
  strIncludes msg "cooldown" || strIncludes msg "Submission cooldown active"

/-- Outcome of one attempted `classifyDomain` transaction as seen by the
client: either a confirmed receipt, or a thrown error message (cooldown
rejection, other revert, network failure, missing configuration …). -/
inductive AttemptOutcome where
  | success (txHash blockNumber : Nat)
  | failure (message : String)
  deriving Repr, DecidableEq

/-- Result object returned by the client's `classifyDomain`. -/
structure ClientResult where
  success : Bool
  txHash : Option Nat
  blockNumber : Option Nat
  error : Option String
  deriving Repr, DecidableEq

/-- The retry loop of `classifyDomain(domain, isSpam, reason, maxRetries)`
in `interact.js`.  `outcomes n` is what attempt `n` observes.  The fuel
argument counts the remaining loop iterations (`maxRetries - attempt + 1`
at the canonical entry), so running out of fuel is the `for` loop
falling through to `return {success:false, error:"Max retries exceeded"}`.
Returns the result together with the list of waits performed, in order
and in milliseconds: `2000 * attempt` before a cooldown retry, `1000`
before any other retry. -/
def retryLoop (outcomes : Nat → AttemptOutcome) (maxRetries : Nat) :
    Nat → Nat → ClientResult × List Nat
  | 0, _ =>
    ({ success := false, txHash := none, blockNumber := none,
       error := some "Max retries exceeded" }, [])
  | fuel + 1, attempt =>
    match outcomes attempt with
    | .success h b =>
      ({ success := true, txHash := some h, blockNumber := some b,
         error := none }, [])
    | .failure msg =>
      if isCooldownError msg ∧ attempt < maxRetries then
        let rest := retryLoop outcomes maxRetries fuel (attempt + 1)
        (rest.1, 2000 * attempt :: rest.2)
      else if attempt = maxRetries then
        ({ success := false, txHash := none, blockNumber := none,
           error := some msg }, [])
      else
        let rest := retryLoop outcomes maxRetries fuel (attempt + 1)
        (rest.1, 1000 :: rest.2)

/-- Client `classifyDomain`: up to `maxRetries` attempts starting
at attempt 1. -/
def classifyDomain (outcomes : Nat → AttemptOutcome)
    (maxRetries : Nat := 3) : ClientResult × List Nat :=
  retryLoop outcomes maxRetries maxRetries 1

/-- The reputation view objects built by `getDomainReputation`;
the metadata fields are only present on a hit. -/
structure ReputationView where
  exists_ : Bool
  reputation_score : Nat
  consensus : String
  spam_votes : Nat
  ham_votes : Nat
  total_reports : Nat
  timestamp : Option Nat
  reporter : Option Addr
  reason : Option String
  deriving Repr, DecidableEq

/-- Client `getDomainReputation(domain)`: wraps `getDomainClassification` and
normalizes absence into the explicit unknown sentinel
`{exists:false, reputation_score:50, consensus:"unknown", 0 votes}`. -/
def getDomainReputation (s : ContractState) (domain : String) :
    ReputationView :=
  let c := getDomainClassification s domain
  if c.1 then
    { exists_ := true
      reputation_score := if c.2.1 then 10 else 90
      consensus := if c.2.1 then "spam" else "ham"
      spam_votes := if c.2.1 then 1 else 0
      ham_votes := if c.2.1 then 0 else 1
      total_reports := 1
      timestamp := some c.2.2.1
      reporter := some c.2.2.2.1
      reason := some c.2.2.2.2 }
  else
    { exists_ := false
      reputation_score := 50
      consensus := "unknown"
      spam_votes := 0
      ham_votes := 0
      total_reports := 0
      timestamp := none
      reporter := none
      reason := none }

/-- One row of the listing built by `listAllDomains`: the event payload
paired with the identifier recovered by decoding the originating
transaction's calldata (the event's `domain` is indexed, so only its
hash is in the log; the model's `DomainClassified` entry carries the
string the decode step recovers). -/
structure ListedDomain where
  domain : String
  isSpam : Bool
  reporter : Addr
  timestamp : Nat
  blockNumber : Nat
  deriving Repr, DecidableEq

/-- The `DomainClassified` events of the log, as listing rows — the
client's `queryFilter(filters.DomainClassified(), 0, "latest")` followed
by the calldata decode.  `DomainUpdated` events do not match the filter
and are invisible to the listing. -/
def createdEvents (log : List LogEntry) : List ListedDomain :=
  log.filterMap fun e =>
    match e.event with
    | .DomainClassified d isSpam reporter ts =>
      some { domain := d, isSpam := isSpam, reporter := reporter,
             timestamp := ts, blockNumber := e.blockNumber }
    | .DomainUpdated _ _ _ _ => none

/-- JavaScript `Map.prototype.set`: replace in place if the key is
present, append otherwise. -/
def mapSet (m : List (String × ListedDomain)) (k : String)
    (v : ListedDomain) : List (String × ListedDomain) :=
  match m with
  | [] => [(k, v)]
  | (k', v') :: rest =>
    if k' = k then (k, v) :: rest else (k', v') :: mapSet rest k v

/-- JavaScript `Map.prototype.get` (`none` when `has` is false). -/
def mapGet (m : List (String × ListedDomain)) (k : String) :
    Option ListedDomain :=
  match m with
  | [] => none
  | (k', v') :: rest => if k' = k then some v' else mapGet rest k

/-- The `domainMap` grouping loop of `listAllDomains`: for each decoded
event, keyed by the lower-cased identifier, keep the entry with the
strictly larger block number. -/
def buildDomainMap : List ListedDomain → List (String × ListedDomain) →
    List (String × ListedDomain)
  | [], m => m
  | e :: rest, m =>
    let domainKey := e.domain.toLower
    let m' :=
      match mapGet m domainKey with
      | none => mapSet m domainKey e
      | some cur =>
        if cur.blockNumber < e.blockNumber then mapSet m domainKey e else m
    buildDomainMap rest m'

/-- Descending-timestamp comparator of the final sort
(`(a, b) => b.timestamp - a.timestamp`).  `Array.prototype.sort` is a
stable sort, modelled by a stable insertion sort with respect to this
relation. -/
def newestFirst (a b : ListedDomain) : Prop :=
  b.timestamp ≤ a.timestamp

instance : DecidableRel newestFirst := fun a b =>
  Nat.decLe b.timestamp a.timestamp

/-- Client `listAllDomains(limit)`: replay the creation events, group to the
latest per lower-cased identifier, sort newest first (stable), truncate
to `limit`. -/
def listAllDomains (log : List LogEntry) (limit : Nat := 100) :
    List ListedDomain :=
  (((buildDomainMap (createdEvents log) []).map Prod.snd).insertionSort
    newestFirst).take limit

end Client

namespace Extension

/-- The `showOverlay` label thresholds (`content_script.js`): risk `>= 0.6`
is `phish-danger`/`Phishing`, else `>= 0.3` is
`phish-suspicious`/`Suspicious`, else `phish-safe`/`Safe`.  Risk values
are modelled as rationals. -/
def overlayRiskClass (risk : ℚ) : String :=
  if risk ≥ 6/10 then "phish-danger"
  else if risk ≥ 3/10 then "phish-suspicious"
  else "phish-safe"

/-- The `riskLabel` shown in the overlay header. -/
def overlayRiskLabel (risk : ℚ) : String :=
  if risk ≥ 6/10 then "Phishing"
  else if risk ≥ 3/10 then "Suspicious"
  else "Safe"

/-- The percentage displayed beside the label: `risk * 100` when the
class is `phish-danger`, `(1 - risk) * 100` otherwise (before
`toFixed(0)` formatting). -/
def overlayConfidencePercent (risk : ℚ) : ℚ :=
  if overlayRiskClass risk = "phish-danger" then risk * 100
  else (1 - risk) * 100

/-- The label computed by `handleAnalyze` in `background.js`:
`final_risk < 0.3` is `Safe`, `< 0.6` is `Suspicious`, else
`Likely Phishing`. -/
def handleAnalyzeLabel (finalRisk : ℚ) : String :=
  if finalRisk < 3/10 then "Safe"
  else if finalRisk < 6/10 then "Suspicious"
  else "Likely Phishing"

end Extension

namespace Chain

/-- C1: the first accepted `classify` for an identifier increments
`totalCount` by exactly 1 and creates the record; every later accepted
`classify` for the same identifier leaves `totalCount` unchanged and
replaces the record's `classification`, `createdAt`, `submitter` and
`reason` in place; records of all other identifiers are untouched, so at
most one live record exists per identifier. -/
theorem classify_record_lifecycle
    (s : ContractState) (sender : Addr) (now blockNum : Nat)
    (domain : String) (isSpam : Bool) (reason : String) (s' : ContractState)
    (h : classifyDomain s sender now blockNum domain isSpam reason = .ok s') :
    (((s.domains domain).exists_ = false →
        s'.totalDomains = s.totalDomains + 1) ∧
     ((s.domains domain).exists_ = true →
        s'.totalDomains = s.totalDomains)) ∧
    s'.domains domain =
      { domain := domain, isSpam := isSpam, timestamp := now,
        reporter := sender, reason := reason, exists_ := true } ∧
    (∀ d, d ≠ domain → s'.domains d = s.domains d) := by
  unfold classifyDomain at h
  split_ifs at h with hcool hlen
  by_cases hupd : (s.domains domain).exists_ = true
  · simp only [hupd, not_true_eq_false, if_false, Except.ok.injEq] at h
    subst h
    refine ⟨⟨?_, fun _ => rfl⟩, ?_, ?_⟩
    · intro hx; rw [hupd] at hx; cases hx
    · simp
    · intro d hd
      simp [hd]
  · simp only [Bool.not_eq_true] at hupd
    simp only [hupd, Bool.false_eq_true, not_false_eq_true, if_true,
      Except.ok.injEq] at h
    subst h
    refine ⟨⟨fun _ => rfl, ?_⟩, ?_, ?_⟩
    · intro hx; rw [hupd] at hx; cases hx
    · simp
    · intro d hd
      simp [hd]

/-- C2: an accepted `classify` implies the caller's gate check
`now >= lastSubmissionAt + cooldownSeconds` passed; acceptance sets the
caller's `lastSubmissionAt` to `now` whatever identifier was written and
leaves the cooldown unchanged, so any second `classify` from the same
submitter less than `cooldownSeconds` later is rejected with the
cooldown error, for every target identifier. -/
theorem classify_cooldown_gate
    (s : ContractState) (sender : Addr) (t1 bn1 : Nat) (d1 : String)
    (b1 : Bool) (r1 : String) (s₁ : ContractState)
    (h : classifyDomain s sender t1 bn1 d1 b1 r1 = .ok s₁) :
    t1 ≥ s.lastSubmissionTime sender + s.submissionCooldown ∧
    s₁.lastSubmissionTime sender = t1 ∧
    s₁.submissionCooldown = s.submissionCooldown ∧
    ∀ t2 bn2 d2 b2 r2, t2 < t1 + s.submissionCooldown →
      classifyDomain s₁ sender t2 bn2 d2 b2 r2 =
        .error "Submission cooldown active" := by
  unfold classifyDomain at h
  split_ifs at h with hcool hlen
  refine ⟨hcool, ?_⟩
  by_cases hupd : (s.domains d1).exists_ = true
  · simp only [hupd, not_true_eq_false, if_false, Except.ok.injEq] at h
    subst h
    refine ⟨by simp, rfl, ?_⟩
    intro t2 bn2 d2 b2 r2 hlt
    unfold classifyDomain
    rw [if_pos]
    simp only [if_pos rfl, ite_true, if_true, eq_self_iff_true]
    omega
  · simp only [Bool.not_eq_true] at hupd
    simp only [hupd, Bool.false_eq_true, not_false_eq_true, if_true,
      Except.ok.injEq] at h
    subst h
    refine ⟨by simp, rfl, ?_⟩
    intro t2 bn2 d2 b2 r2 hlt
    unfold classifyDomain
    rw [if_pos]
    simp only [if_pos rfl, ite_true, if_true, eq_self_iff_true]
    omega

/-- C5: a rejected `classify` transaction reverts: the post-transaction
state is exactly the pre-state (record map, submission gates and
`totalCount` included), the error is one of the two rejection messages,
and a rejection only happens when the cooldown gate fails or the
identifier is empty. -/
theorem classify_rejected_no_change
    (s : ContractState) (sender : Addr) (now blockNum : Nat)
    (domain : String) (isSpam : Bool) (reason : String) (e : String)
    (h : (classifyTx s sender now blockNum domain isSpam reason).2 = some e) :
    (classifyTx s sender now blockNum domain isSpam reason).1 = s ∧
    (e = "Submission cooldown active" ∨ e = "Email address cannot be empty") ∧
    (¬ (now ≥ s.lastSubmissionTime sender + s.submissionCooldown) ∨
      domain.length = 0) := by
  unfold classifyTx at h ⊢
  cases hc : classifyDomain s sender now blockNum domain isSpam reason with
  | ok s' => rw [hc] at h; cases h
  | error msg =>
    rw [hc] at h
    injection h with h
    subst h
    refine ⟨rfl, ?_⟩
    unfold classifyDomain at hc
    split_ifs at hc with h1 h2
    · by_cases hupd : (s.domains domain).exists_ = true
      · simp only [hupd, not_true_eq_false, if_false] at hc
        cases hc
      · simp only [Bool.not_eq_true] at hupd
        simp only [hupd, Bool.false_eq_true, not_false_eq_true, if_true] at hc
        cases hc
    · injection hc with hc
      exact ⟨Or.inr hc.symm, Or.inr (by omega)⟩
    · injection hc with hc
      exact ⟨Or.inl hc.symm, Or.inl h1⟩

/-- C6: `remove` fails on a non-existent identifier; a successful
`remove` decrements `totalCount` by exactly 1, resets the slot to the
zero record (so a subsequent `query` returns `exists=false` with
zero-value fields) and touches no other identifier. -/
theorem removeDomain_spec
    (s : ContractState) (caller : Addr) (i : String) (s' : ContractState) :
    ((s.domains i).exists_ = false → caller = s.owner →
        removeDomain s caller i = .error "Email does not exist") ∧
    (removeDomain s caller i = .ok s' →
        s'.totalDomains + 1 = s.totalDomains ∧
        s'.domains i = emptyRecord ∧
        getDomainClassification s' i = (false, false, 0, 0, "") ∧
        (∀ d, d ≠ i → s'.domains d = s.domains d)) := by
  constructor
  · intro hex hown
    unfold removeDomain
    rw [if_neg (by simp [hown]), if_pos (by simp [hex])]
  · intro h
    unfold removeDomain at h
    split_ifs at h with h1 h2 h3
    injection h with h
    subst h
    refine ⟨?_, by simp, ?_, ?_⟩
    · show s.totalDomains - 1 + 1 = s.totalDomains
      omega
    · simp [getDomainClassification, emptyRecord]
    · intro d hd
      simp [hd]

/-- Shape of the event log after an accepted `classify`: exactly one
event is appended — `DomainClassified` on a first write,
`DomainUpdated` (carrying the old and the new classification) on an
overwrite. -/
theorem classifyDomain_ok_log
    (s : ContractState) (sender : Addr) (now blockNum : Nat)
    (domain : String) (isSpam : Bool) (reason : String) (s' : ContractState)
    (h : classifyDomain s sender now blockNum domain isSpam reason = .ok s') :
    s'.log = s.log ++
      [⟨if (s.domains domain).exists_ then
          Event.DomainUpdated domain (s.domains domain).isSpam isSpam sender
        else Event.DomainClassified domain isSpam sender now, blockNum⟩] := by
  unfold classifyDomain at h
  split_ifs at h with hcool hlen
  by_cases hupd : (s.domains domain).exists_ = true
  · simp only [hupd, not_true_eq_false, if_false, Except.ok.injEq] at h
    subst h
    simp [hupd]
  · simp only [Bool.not_eq_true] at hupd
    simp only [hupd, Bool.false_eq_true, not_false_eq_true, if_true,
      Except.ok.injEq] at h
    subst h
    simp [hupd]

/-- C9 (amended): every accepted `classify` appends exactly one event;
a first write appends `DomainClassified`, which carries the identifier,
the classification, the caller and the timestamp; a subsequent write
appends `DomainUpdated`, which carries the identifier, the old and the
new classification and the caller but no timestamp
(`timestampField = none`). -/
theorem classify_emits_single_event
    (s : ContractState) (sender : Addr) (now blockNum : Nat)
    (domain : String) (isSpam : Bool) (reason : String) (s' : ContractState)
    (h : classifyDomain s sender now blockNum domain isSpam reason = .ok s') :
    ((s.domains domain).exists_ = false →
      s'.log = s.log ++
        [⟨Event.DomainClassified domain isSpam sender now, blockNum⟩] ∧
      (Event.DomainClassified domain isSpam sender now).timestampField =
        some now) ∧
    ((s.domains domain).exists_ = true →
      s'.log = s.log ++
        [⟨Event.DomainUpdated domain (s.domains domain).isSpam isSpam sender,
          blockNum⟩] ∧
      (Event.DomainUpdated domain (s.domains domain).isSpam isSpam
        sender).timestampField = none) := by
  have hlog := classifyDomain_ok_log s sender now blockNum domain isSpam
    reason s' h
  constructor
  · intro hx
    rw [hlog, hx]
    exact ⟨by simp, rfl⟩
  · intro hx
    rw [hlog, hx]
    exact ⟨by simp, rfl⟩

/-- Acceptance under a zero cooldown: if the cooldown is 0, the caller's
stored gate time is at most `now` and the identifier is non-empty, the
write is accepted, the cooldown stays 0 and every stored gate time stays
at most `now`. -/
theorem classify_ok_of_cooldown_zero
    (s : ContractState) (sender : Addr) (now bn : Nat) (domain : String)
    (b : Bool) (r : String)
    (h0 : s.submissionCooldown = 0)
    (hlast : s.lastSubmissionTime sender ≤ now)
    (hd : domain.length > 0) :
    ∃ s', classifyDomain s sender now bn domain b r = .ok s' ∧
      s'.submissionCooldown = 0 ∧
      (∀ a, s.lastSubmissionTime a ≤ now →
        s'.lastSubmissionTime a ≤ now) := by
  unfold classifyDomain
  rw [if_neg (by omega), if_neg (by omega)]
  by_cases hupd : (s.domains domain).exists_ = true
  · rw [if_neg (by simp [hupd])]
    refine ⟨_, rfl, h0, ?_⟩
    intro a ha
    by_cases he : a = sender <;> simp [he, ha]
  · rw [if_pos (by simp [Bool.not_eq_true] at hupd; simp [hupd])]
    refine ⟨_, rfl, h0, ?_⟩
    intro a ha
    by_cases he : a = sender <;> simp [he, ha]

/-- C10: a freshly deployed ledger has `submissionCooldown = 0`, so
`canUserSubmit` answers true for every identity at every time, and two
consecutive `classify` calls from the same submitter at the same
timestamp are both accepted (the cooldown stays 0 after each write, so
the gate blocks nothing until the owner raises it). -/
theorem initState_gate_open
    (dep u sender : Addr) (now t bn bn2 : Nat)
    (d1 d2 : String) (b1 b2 : Bool) (r1 r2 : String)
    (h1 : d1.length > 0) (h2 : d2.length > 0) :
    (initState dep).submissionCooldown = 0 ∧
    (canUserSubmit (initState dep) u now).1 = true ∧
    ∃ s1 s2,
      classifyDomain (initState dep) sender t bn d1 b1 r1 = .ok s1 ∧
      s1.submissionCooldown = 0 ∧
      (canUserSubmit s1 u t).1 = true ∧
      classifyDomain s1 sender t bn2 d2 b2 r2 = .ok s2 ∧
      s2.submissionCooldown = 0 := by
  refine ⟨rfl, by simp [canUserSubmit, initState], ?_⟩
  obtain ⟨s1, hs1, hc1, hl1⟩ :=
    classify_ok_of_cooldown_zero (initState dep) sender t bn d1 b1 r1 rfl
      (Nat.zero_le t) h1
  have hl1' : ∀ a, s1.lastSubmissionTime a ≤ t := fun a =>
    hl1 a (Nat.zero_le t)
  obtain ⟨s2, hs2, hc2, _⟩ :=
    classify_ok_of_cooldown_zero s1 sender t bn2 d2 b2 r2 hc1 (hl1' sender) h2
  refine ⟨s1, s2, hs1, hc1, ?_, hs2, hc2⟩
  simp [canUserSubmit, hc1, hl1' u]

/-- Example trace: deploy (owner 1), then submitter 2 writes a first
classification for `a@x.com` at time 100 in block 1. -/
def exS0 : ContractState := initState 1

/-- State after the first accepted write of the example trace. -/
def exS1 : ContractState :=
  match classifyDomain exS0 2 100 1 "a@x.com" true "first report" with
  | .ok s => s
  | .error _ => exS0

/-- State after submitter 2 overwrites `a@x.com` to ham at time 200 in
block 2 (the deployed cooldown is 0, so the second write is accepted). -/
def exS2 : ContractState :=
  match classifyDomain exS1 2 200 2 "a@x.com" false "correction" with
  | .ok s => s
  | .error _ => exS1

theorem classify_record_lifecycle_witness :
    exS1.totalDomains = exS0.totalDomains + 1 ∧
    exS2.totalDomains = exS1.totalDomains ∧
    exS2.domains "a@x.com" =
      { domain := "a@x.com", isSpam := false, timestamp := 200,
        reporter := 2, reason := "correction", exists_ := true } :=
  ⟨(classify_record_lifecycle exS0 2 100 1 "a@x.com" true "first report"
      exS1 rfl).1.1 rfl,
   (classify_record_lifecycle exS1 2 200 2 "a@x.com" false "correction"
      exS2 rfl).1.2 rfl,
   (classify_record_lifecycle exS1 2 200 2 "a@x.com" false "correction"
      exS2 rfl).2.1⟩

/-- Example state with a 60-second cooldown set by the owner. -/
def exCd : ContractState :=
  match updateSubmissionCooldown (initState 1) 1 60 with
  | .ok s => s
  | .error _ => initState 1

/-- State after submitter 2's accepted write under the 60 s cooldown. -/
def exCd1 : ContractState :=
  match classifyDomain exCd 2 100 1 "a@x.com" true "r" with
  | .ok s => s
  | .error _ => exCd

theorem classify_cooldown_gate_witness :
    classifyDomain exCd1 2 130 2 "b@y.com" false "r2" =
      .error "Submission cooldown active" :=
  (classify_cooldown_gate exCd 2 100 1 "a@x.com" true "r" exCd1
    rfl).2.2.2 130 2 "b@y.com" false "r2" (by decide)

theorem classify_rejected_no_change_witness :
    (classifyTx exCd1 2 130 2 "b@y.com" false "r2").1 = exCd1 ∧
    (classifyTx (initState 1) 2 0 1 "" true "r").1 = initState 1 :=
  ⟨((classify_rejected_no_change exCd1 2 130 2 "b@y.com" false "r2"
      "Submission cooldown active" rfl).1),
   ((classify_rejected_no_change (initState 1) 2 0 1 "" true "r"
      "Email address cannot be empty" rfl).1)⟩

theorem removeDomain_spec_witness :
    removeDomain exS0 1 "a@x.com" = .error "Email does not exist" ∧
    (match removeDomain exS1 1 "a@x.com" with
      | .ok s => s
      | .error _ => exS1).totalDomains + 1 = exS1.totalDomains ∧
    getDomainClassification
      (match removeDomain exS1 1 "a@x.com" with
        | .ok s => s
        | .error _ => exS1) "a@x.com" = (false, false, 0, 0, "") :=
  ⟨(removeDomain_spec exS0 1 "a@x.com" exS0).1 rfl rfl,
   ((removeDomain_spec exS1 1 "a@x.com"
      (match removeDomain exS1 1 "a@x.com" with
        | .ok s => s
        | .error _ => exS1)).2 rfl).1,
   ((removeDomain_spec exS1 1 "a@x.com"
      (match removeDomain exS1 1 "a@x.com" with
        | .ok s => s
        | .error _ => exS1)).2 rfl).2.2.1⟩

/-- C9 counterexample: the second (overwriting) accepted write of the
example trace appends exactly one event, and that event is
`DomainUpdated "a@x.com" true false 2` — it carries the identifier, the
old and the new classification and the caller, but its
`timestampField` is `none`: the updated event does not carry the
timestamp of the write, contrary to the claim that both event kinds
carry it. -/
theorem classify_update_event_no_timestamp :
    classifyDomain exS1 2 200 2 "a@x.com" false "correction" = .ok exS2 ∧
    exS2.log = exS1.log ++
      [⟨Event.DomainUpdated "a@x.com" true false 2, 2⟩] ∧
    (Event.DomainUpdated "a@x.com" true false 2).timestampField = none :=
  ⟨rfl, rfl, rfl⟩

theorem classify_emits_single_event_witness :
    exS1.log = exS0.log ++
      [⟨Event.DomainClassified "a@x.com" true 2 100, 1⟩] ∧
    (Event.DomainClassified "a@x.com" true 2 100).timestampField =
      some 100 :=
  (classify_emits_single_event exS0 2 100 1 "a@x.com" true "first report"
    exS1 rfl).1 rfl

theorem initState_gate_open_witness :
    (initState 1).submissionCooldown = 0 ∧
    (canUserSubmit (initState 1) 5 0).1 = true ∧
    ∃ s1 s2,
      classifyDomain (initState 1) 2 100 1 "a@x.com" true "r1" = .ok s1 ∧
      s1.submissionCooldown = 0 ∧
      (canUserSubmit s1 5 100).1 = true ∧
      classifyDomain s1 2 100 2 "b@y.com" false "r2" = .ok s2 ∧
      s2.submissionCooldown = 0 :=
  initState_gate_open 1 5 2 0 100 1 2 "a@x.com" "b@y.com" true false
    "r1" "r2" (by decide) (by decide)

end Chain

namespace Client

open Chain

/-- Unfolding step: a successful attempt ends the loop at once, with no
further wait. -/
theorem retryLoop_success (o : Nat → AttemptOutcome)
    (maxR fuel attempt h b : Nat) (ho : o attempt = .success h b) :
    retryLoop o maxR (fuel + 1) attempt =
      ({ success := true, txHash := some h, blockNumber := some b,
         error := none }, []) := by
  unfold retryLoop
  simp only [ho]

/-- Unfolding step: a cooldown failure before the last attempt waits
`2000 * attempt` ms and retries. -/
theorem retryLoop_cooldown (o : Nat → AttemptOutcome)
    (maxR fuel attempt : Nat) (msg : String)
    (ho : o attempt = .failure msg) (hc : isCooldownError msg = true)
    (hlt : attempt < maxR) :
    retryLoop o maxR (fuel + 1) attempt =
      ((retryLoop o maxR fuel (attempt + 1)).1,
        2000 * attempt :: (retryLoop o maxR fuel (attempt + 1)).2) := by
  rw [show retryLoop o maxR (fuel + 1) attempt =
        match o attempt with
        | .success h b =>
          ({ success := true, txHash := some h, blockNumber := some b,
             error := none }, [])
        | .failure msg =>
          if isCooldownError msg ∧ attempt < maxR then
            ((retryLoop o maxR fuel (attempt + 1)).1,
              2000 * attempt :: (retryLoop o maxR fuel (attempt + 1)).2)
          else if attempt = maxR then
            ({ success := false, txHash := none, blockNumber := none,
               error := some msg }, [])
          else
            ((retryLoop o maxR fuel (attempt + 1)).1,
              1000 :: (retryLoop o maxR fuel (attempt + 1)).2)
      from rfl]
  simp only [ho]
  rw [if_pos ⟨hc, hlt⟩]

/-- Unfolding step: any other failure before the last attempt waits a
fixed 1000 ms and retries as well. -/
theorem retryLoop_other (o : Nat → AttemptOutcome)
    (maxR fuel attempt : Nat) (msg : String)
    (ho : o attempt = .failure msg)
    (hnc : ¬ (isCooldownError msg = true ∧ attempt < maxR))
    (hne : attempt ≠ maxR) :
    retryLoop o maxR (fuel + 1) attempt =
      ((retryLoop o maxR fuel (attempt + 1)).1,
        1000 :: (retryLoop o maxR fuel (attempt + 1)).2) := by
  rw [show retryLoop o maxR (fuel + 1) attempt =
        match o attempt with
        | .success h b =>
          ({ success := true, txHash := some h, blockNumber := some b,
             error := none }, [])
        | .failure msg =>
          if isCooldownError msg ∧ attempt < maxR then
            ((retryLoop o maxR fuel (attempt + 1)).1,
              2000 * attempt :: (retryLoop o maxR fuel (attempt + 1)).2)
          else if attempt = maxR then
            ({ success := false, txHash := none, blockNumber := none,
               error := some msg }, [])
          else
            ((retryLoop o maxR fuel (attempt + 1)).1,
              1000 :: (retryLoop o maxR fuel (attempt + 1)).2)
      from rfl]
  simp only [ho]
  rw [if_neg hnc, if_neg hne]

/-- The loop performs at most `fuel - 1` waits when entered with the
canonical fuel/attempt relation. -/
theorem retryLoop_waits_length (o : Nat → AttemptOutcome) (maxR : Nat) :
    ∀ fuel attempt, fuel + attempt = maxR + 1 →
      (retryLoop o maxR fuel attempt).2.length ≤ fuel - 1 := by
  intro fuel
  induction fuel with
  | zero => intro attempt _; simp [retryLoop]
  | succ n ih =>
    intro attempt hinv
    unfold retryLoop
    cases ho : o attempt with
    | success h b => simp
    | failure msg =>
      simp only
      by_cases hc : isCooldownError msg = true ∧ attempt < maxR
      · rw [if_pos hc]
        obtain ⟨hc1, hc2⟩ := hc
        have hrec := ih (attempt + 1) (by omega)
        simp only [List.length_cons]
        omega
      · rw [if_neg hc]
        by_cases he : attempt = maxR
        · rw [if_pos he]; simp
        · rw [if_neg he]
          have hrec := ih (attempt + 1) (by omega)
          simp only [List.length_cons]
          omega

/-- Oracle for the counterexample run: attempt 1 throws a non-cooldown
error, attempt 2 would confirm. -/
def nonCooldownThenSuccess : Nat → AttemptOutcome := fun n =>
  if n = 1 then .failure "network error" else .success 7 9

/-- C3 counterexample: the claim says a non-cooldown failure is not
retried and is surfaced to the caller immediately.  Concretely, with a
non-cooldown failure (`"network error"`, not matched by the cooldown
test) on attempt 1 and a confirmation on attempt 2, the client does not
surface the error: it waits 1000 ms, retries, and returns overall
success — so non-cooldown failures before the last attempt are retried
too. -/
theorem classifyDomain_nonCooldown_retried :
    isCooldownError "network error" = false ∧
    classifyDomain nonCooldownThenSuccess 3 =
      ({ success := true, txHash := some 7, blockNumber := some 9,
         error := none }, [1000]) := by
  constructor
  · decide
  · decide

/-- C3 (amended): the client retries on every failure before the last
attempt, not only on cooldown rejections: a cooldown rejection on
attempt `n < maxAttempts` waits `n * 2000` ms (2 s, 4 s — strictly
increasing linear backoff) before retrying, while any other failure
before the last attempt waits a fixed 1000 ms and is retried as well;
a run with cooldown rejections on attempts 1 and 2 and success on
attempt 3 returns overall success after exactly the two increasing
waits 2000 ms and 4000 ms, and no run performs more than
`maxAttempts - 1` waits. -/
theorem classifyDomain_retry_policy
    (o o' : Nat → AttemptOutcome) (m1 m2 msg : String) (h b h' b' : Nat)
    (hm1 : o 1 = .failure m1) (hc1 : isCooldownError m1 = true)
    (hm2 : o 2 = .failure m2) (hc2 : isCooldownError m2 = true)
    (hs3 : o 3 = .success h b)
    (hm1' : o' 1 = .failure msg) (hcn : isCooldownError msg = false)
    (hs2' : o' 2 = .success h' b') :
    classifyDomain o 3 =
      ({ success := true, txHash := some h, blockNumber := some b,
         error := none }, [2000 * 1, 2000 * 2]) ∧
    2000 * 1 < 2000 * 2 ∧
    classifyDomain o' 3 =
      ({ success := true, txHash := some h', blockNumber := some b',
         error := none }, [1000]) ∧
    (∀ (o'' : Nat → AttemptOutcome) (m : Nat),
      (classifyDomain o'' m).2.length ≤ m - 1) := by
  refine ⟨?_, by norm_num, ?_, ?_⟩
  · show retryLoop o 3 3 1 = _
    rw [retryLoop_cooldown o 3 2 1 m1 hm1 hc1 (by norm_num),
      retryLoop_cooldown o 3 1 2 m2 hm2 hc2 (by norm_num),
      retryLoop_success o 3 0 3 h b hs3]
  · show retryLoop o' 3 3 1 = _
    rw [retryLoop_other o' 3 2 1 msg hm1' (by simp [hcn]) (by norm_num),
      retryLoop_success o' 3 1 2 h' b' hs2']
  · intro o'' m
    exact retryLoop_waits_length o'' m m 1 (by omega)

/-- Oracle for the witness run: cooldown rejections on attempts 1 and
2, confirmation on attempt 3. -/
def cooldownTwiceThenSuccess : Nat → AttemptOutcome := fun n =>
  if n ≤ 2 then .failure "Submission cooldown active" else .success 11 13

theorem classifyDomain_retry_policy_witness :
    classifyDomain cooldownTwiceThenSuccess 3 =
      ({ success := true, txHash := some 11, blockNumber := some 13,
         error := none }, [2000 * 1, 2000 * 2]) :=
  (classifyDomain_retry_policy cooldownTwiceThenSuccess
    nonCooldownThenSuccess "Submission cooldown active"
    "Submission cooldown active" "network error" 11 13 7 9
    rfl (by decide) rfl (by decide) rfl rfl (by decide) rfl).1

/-- C8: looking up an identifier with no stored record yields the
explicit unknown sentinel: `exists=false`, consensus `"unknown"`,
reputation score 50, zero spam votes, ham votes and total reports. -/
theorem getDomainReputation_unknown (s : Chain.ContractState) (i : String)
    (h : (s.domains i).exists_ = false) :
    getDomainReputation s i =
      { exists_ := false, reputation_score := 50, consensus := "unknown",
        spam_votes := 0, ham_votes := 0, total_reports := 0,
        timestamp := none, reporter := none, reason := none } := by
  unfold getDomainReputation Chain.getDomainClassification
  simp [h]

theorem getDomainReputation_unknown_witness :
    getDomainReputation (Chain.initState 1) "nobody@x.com" =
      { exists_ := false, reputation_score := 50, consensus := "unknown",
        spam_votes := 0, ham_votes := 0, total_reports := 0,
        timestamp := none, reporter := none, reason := none } :=
  getDomainReputation_unknown (Chain.initState 1) "nobody@x.com" rfl

/-- Characterisation of `mapGet` misses: the key is not among the map's
keys. -/
theorem mapGet_eq_none_iff (m : List (String × ListedDomain)) (k : String) :
    mapGet m k = none ↔ k ∉ m.map Prod.fst := by
  induction m with
  | nil => simp [mapGet]
  | cons p tl ih =>
    obtain ⟨k', v'⟩ := p
    by_cases h : k' = k
    · subst h
      simp [mapGet]
    · simp only [mapGet, List.map_cons, List.mem_cons]
      rw [if_neg h, ih]
      constructor
      · intro hn
        rintro (rfl | hmem)
        · exact h rfl
        · exact hn hmem
      · intro hn hmem
        exact hn (Or.inr hmem)

/-- Setting an already-present key keeps the key list unchanged. -/
theorem mapSet_keys_mem (m : List (String × ListedDomain)) (k : String)
    (v : ListedDomain) (h : k ∈ m.map Prod.fst) :
    (mapSet m k v).map Prod.fst = m.map Prod.fst := by
  induction m with
  | nil => simp at h
  | cons p tl ih =>
    obtain ⟨k', v'⟩ := p
    by_cases he : k' = k
    · subst he
      simp [mapSet]
    · simp only [List.map_cons, List.mem_cons] at h
      rcases h with h | h
      · exact absurd h.symm he
      · simp only [mapSet]
        rw [if_neg he]
        simp [ih h]

/-- Setting a fresh key appends it to the key list. -/
theorem mapSet_keys_new (m : List (String × ListedDomain)) (k : String)
    (v : ListedDomain) (h : k ∉ m.map Prod.fst) :
    (mapSet m k v).map Prod.fst = m.map Prod.fst ++ [k] := by
  induction m with
  | nil => simp [mapSet]
  | cons p tl ih =>
    obtain ⟨k', v'⟩ := p
    simp only [List.map_cons, List.mem_cons] at h
    push_neg at h
    simp only [mapSet]
    rw [if_neg (fun he => h.1 he.symm)]
    simp [ih h.2]

/-- Every entry of `mapSet m k v` is the new pair or an old entry. -/
theorem mem_mapSet (m : List (String × ListedDomain)) (k : String)
    (v : ListedDomain) (p : String × ListedDomain)
    (hp : p ∈ mapSet m k v) : p = (k, v) ∨ p ∈ m := by
  induction m with
  | nil => simpa [mapSet] using hp
  | cons q tl ih =>
    obtain ⟨k', v'⟩ := q
    simp only [mapSet] at hp
    by_cases he : k' = k
    · rw [if_pos he] at hp
      rcases List.mem_cons.1 hp with h | h
      · exact Or.inl h
      · exact Or.inr (List.mem_cons_of_mem _ h)
    · rw [if_neg he] at hp
      rcases List.mem_cons.1 hp with h | h
      · exact Or.inr (h ▸ List.mem_cons_self _ _)
      · rcases ih h with h' | h'
        · exact Or.inl h'
        · exact Or.inr (List.mem_cons_of_mem _ h')

/-- Invariant of the grouping map: keys are pairwise distinct and each
entry is stored under its lower-cased identifier. -/
def goodMap (m : List (String × ListedDomain)) : Prop :=
  (m.map Prod.fst).Nodup ∧ ∀ p ∈ m, p.2.domain.toLower = p.1

theorem goodMap_mapSet (m : List (String × ListedDomain)) (k : String)
    (v : ListedDomain) (hm : goodMap m) (hk : v.domain.toLower = k) :
    goodMap (mapSet m k v) := by
  constructor
  · by_cases h : k ∈ m.map Prod.fst
    · rw [mapSet_keys_mem m k v h]
      exact hm.1
    · rw [mapSet_keys_new m k v h]
      simp [List.nodup_append, hm.1, h]
  · intro p hp
    rcases mem_mapSet m k v p hp with h | h
    · rw [h]
      exact hk
    · exact hm.2 p h

theorem buildDomainMap_good (es : List ListedDomain) :
    ∀ m, goodMap m → goodMap (buildDomainMap es m) := by
  induction es with
  | nil => intro m hm; simpa [buildDomainMap] using hm
  | cons e rest ih =>
    intro m hm
    simp only [buildDomainMap]
    cases hg : mapGet m e.domain.toLower with
    | none => exact ih _ (goodMap_mapSet m _ e hm rfl)
    | some cur =>
      show goodMap (buildDomainMap rest
        (if cur.blockNumber < e.blockNumber then mapSet m e.domain.toLower e
         else m))
      by_cases hb : cur.blockNumber < e.blockNumber
      · rw [if_pos hb]
        exact ih _ (goodMap_mapSet m _ e hm rfl)
      · rw [if_neg hb]
        exact ih _ hm

theorem buildDomainMap_mem (es : List ListedDomain) :
    ∀ m p, p ∈ buildDomainMap es m → p ∈ m ∨ p.2 ∈ es := by
  induction es with
  | nil =>
    intro m p hp
    exact Or.inl (by simpa [buildDomainMap] using hp)
  | cons e rest ih =>
    intro m p hp
    simp only [buildDomainMap] at hp
    cases hg : mapGet m e.domain.toLower with
    | none =>
      rw [hg] at hp
      rcases ih _ p hp with h | h
      · rcases mem_mapSet m _ e p h with h' | h'
        · right; rw [h']; exact List.mem_cons_self _ _
        · exact Or.inl h'
      · right; exact List.mem_cons_of_mem _ h
    | some cur =>
      rw [hg] at hp
      replace hp : p ∈ buildDomainMap rest
          (if cur.blockNumber < e.blockNumber then
            mapSet m e.domain.toLower e else m) := hp
      by_cases hb : cur.blockNumber < e.blockNumber
      · rw [if_pos hb] at hp
        rcases ih _ p hp with h | h
        · rcases mem_mapSet m _ e p h with h' | h'
          · right; rw [h']; exact List.mem_cons_self _ _
          · exact Or.inl h'
        · right; exact List.mem_cons_of_mem _ h
      · rw [if_neg hb] at hp
        rcases ih _ p hp with h | h
        · exact Or.inl h
        · right; exact List.mem_cons_of_mem _ h

/-- C4 counterexample: in the example trace, `a@x.com` is first
classified spam (creation event, block 1, time 100) and then overwritten
to ham (update event, block 2, time 200).  The live record is ham with
timestamp 200, but `listAllDomains` — which replays only
`DomainClassified` events — still lists the identifier as spam with the
first write's timestamp: the listing entry is not the most recent write
for the identifier. -/
theorem listAllDomains_stale_after_update :
    Chain.classifyDomain Chain.exS1 2 200 2 "a@x.com" false "correction" =
      .ok Chain.exS2 ∧
    (Chain.exS2.domains "a@x.com").isSpam = false ∧
    (Chain.exS2.domains "a@x.com").timestamp = 200 ∧
    listAllDomains Chain.exS2.log 10 =
      [{ domain := "a@x.com", isSpam := true, reporter := 2,
         timestamp := 100, blockNumber := 1 }] :=
  ⟨rfl, rfl, rfl, by decide⟩

/-- C4 (amended): `listAll(limit)` returns at most `limit` entries,
ordered newest first by timestamp, with at most one entry per
lower-cased identifier, and every entry is the payload of some creation
(`DomainClassified`) event of the log; the listing reflects creation
events only — an accepted overwrite of an existing record (which emits
`DomainUpdated`) leaves the listing unchanged, so an updated
identifier's entry still shows the write that created its record. -/
theorem listAllDomains_spec (log : List LogEntry) (limit : Nat) :
    (listAllDomains log limit).length ≤ limit ∧
    List.Pairwise (fun a b => b.timestamp ≤ a.timestamp)
      (listAllDomains log limit) ∧
    ((listAllDomains log limit).map (fun e => e.domain.toLower)).Nodup ∧
    (∀ e ∈ listAllDomains log limit, e ∈ createdEvents log) ∧
    (∀ (s s' : ContractState) (sender : Addr) (now bn : Nat) (d : String)
        (b : Bool) (r : String),
      Chain.classifyDomain s sender now bn d b r = .ok s' →
      (s.domains d).exists_ = true →
      listAllDomains s'.log limit = listAllDomains s.log limit) := by
  have hgood : goodMap (buildDomainMap (createdEvents log) []) :=
    buildDomainMap_good (createdEvents log) [] ⟨by simp, by simp⟩
  haveI instTot : IsTotal ListedDomain newestFirst :=
    ⟨fun a b => Nat.le_total b.timestamp a.timestamp⟩
  haveI instTrans : IsTrans ListedDomain newestFirst :=
    ⟨fun _ _ _ h1 h2 => le_trans h2 h1⟩
  have hsorted : List.Sorted newestFirst
      (((buildDomainMap (createdEvents log) []).map Prod.snd).insertionSort
        newestFirst) :=
    List.sorted_insertionSort newestFirst _
  have hperm : List.Perm
      (((buildDomainMap (createdEvents log) []).map Prod.snd).insertionSort
        newestFirst) ((buildDomainMap (createdEvents log) []).map Prod.snd) :=
    List.perm_insertionSort newestFirst _
  refine ⟨?_, ?_, ?_, ?_, ?_⟩
  · exact List.length_take_le _ _
  · exact List.Pairwise.sublist (List.take_sublist _ _) hsorted
  · have hkeys : ((buildDomainMap (createdEvents log) []).map
        Prod.snd).map (fun e => e.domain.toLower) =
        (buildDomainMap (createdEvents log) []).map Prod.fst := by
      rw [List.map_map]
      exact List.map_congr_left (fun p hp => hgood.2 p hp)
    have hvals : (((buildDomainMap (createdEvents log) []).map
        Prod.snd).map (fun e => e.domain.toLower)).Nodup := by
      rw [hkeys]; exact hgood.1
    have hsortedNodup :
        ((((buildDomainMap (createdEvents log) []).map Prod.snd).insertionSort
          newestFirst).map (fun e => e.domain.toLower)).Nodup :=
      ((hperm.map _).nodup_iff).2 hvals
    rw [listAllDomains, List.map_take]
    exact List.Nodup.sublist (List.take_sublist _ _) hsortedNodup
  · intro e he
    have h1 : e ∈ ((buildDomainMap (createdEvents log) []).map
        Prod.snd).insertionSort newestFirst :=
      List.take_subset _ _ he
    have h2 : e ∈ (buildDomainMap (createdEvents log) []).map Prod.snd :=
      hperm.subset h1
    obtain ⟨p, hp, hpe⟩ := List.mem_map.1 h2
    rcases buildDomainMap_mem (createdEvents log) [] p hp with h | h
    · cases h
    · rw [← hpe]; exact h
  · intro s s' sender now bn d b r hok hex
    have hlog := Chain.classifyDomain_ok_log s sender now bn d b r s' hok
    rw [hex, if_pos rfl] at hlog
    have hce : createdEvents s'.log = createdEvents s.log := by
      rw [hlog]
      simp [createdEvents, List.filterMap_append]
    simp only [listAllDomains, hce]

theorem listAllDomains_spec_witness :
    (listAllDomains Chain.exS2.log 10).length ≤ 10 ∧
    listAllDomains Chain.exS2.log 10 = listAllDomains Chain.exS1.log 10 :=
  ⟨(listAllDomains_spec Chain.exS2.log 10).1,
   (listAllDomains_spec Chain.exS2.log 10).2.2.2.2 Chain.exS1 Chain.exS2 2
     200 2 "a@x.com" false "correction" rfl rfl⟩

end Client

namespace Extension

/-- C7: for any risk in [0,1], both the overlay and the background
script label `< 0.3` as safe, `[0.3, 0.6)` as suspicious and `>= 0.6`
as phishing; the confidence percentage displayed is `risk * 100` for the
phishing label and `(1 - risk) * 100` for the other two. -/
theorem risk_label_confidence (r : ℚ) (h0 : 0 ≤ r) (h1 : r ≤ 1) :
    (r < 3/10 →
      overlayRiskLabel r = "Safe" ∧ handleAnalyzeLabel r = "Safe") ∧
    (3/10 ≤ r → r < 6/10 →
      overlayRiskLabel r = "Suspicious" ∧
      handleAnalyzeLabel r = "Suspicious") ∧
    (6/10 ≤ r →
      overlayRiskLabel r = "Phishing" ∧
      handleAnalyzeLabel r = "Likely Phishing") ∧
    (6/10 ≤ r → overlayConfidencePercent r = r * 100) ∧
    (r < 6/10 → overlayConfidencePercent r = (1 - r) * 100) := by
  refine ⟨?_, ?_, ?_, ?_, ?_⟩
  · intro h
    constructor
    · unfold overlayRiskLabel
      rw [if_neg (by linarith), if_neg (by linarith)]
    · unfold handleAnalyzeLabel
      rw [if_pos h]
  · intro h3 h6
    constructor
    · unfold overlayRiskLabel
      rw [if_neg (by linarith), if_pos h3]
    · unfold handleAnalyzeLabel
      rw [if_neg (by linarith), if_pos h6]
  · intro h6
    constructor
    · unfold overlayRiskLabel
      rw [if_pos h6]
    · unfold handleAnalyzeLabel
      rw [if_neg (by linarith), if_neg (by linarith)]
  · intro h6
    unfold overlayConfidencePercent overlayRiskClass
    rw [if_pos h6, if_pos rfl]
  · intro hlt
    unfold overlayConfidencePercent overlayRiskClass
    rw [if_neg (show ¬ (r ≥ 6/10) from by linarith)]
    by_cases h3 : r ≥ 3/10
    · rw [if_pos h3,
        if_neg (show ("phish-suspicious" : String) ≠ "phish-danger" from
          by decide)]
    · rw [if_neg h3,
        if_neg (show ("phish-safe" : String) ≠ "phish-danger" from
          by decide)]

theorem risk_label_confidence_witness :
    overlayRiskLabel (1/2 : ℚ) = "Suspicious" ∧
    overlayConfidencePercent (1/2 : ℚ) = (1 - 1/2) * 100 ∧
    overlayRiskLabel (7/10 : ℚ) = "Phishing" ∧
    overlayConfidencePercent (7/10 : ℚ) = (7/10) * 100 :=
  ⟨((risk_label_confidence (1/2) (by norm_num) (by norm_num)).2.1
      (by norm_num) (by norm_num)).1,
   (risk_label_confidence (1/2) (by norm_num) (by norm_num)).2.2.2.2
     (by norm_num),
   ((risk_label_confidence (7/10) (by norm_num) (by norm_num)).2.2.1
      (by norm_num)).1,
   (risk_label_confidence (7/10) (by norm_num) (by norm_num)).2.2.2.1
     (by norm_num)⟩

end Extension
